import Mathlib

set_option maxRecDepth 8192

/-!
Verification of the CSV-import HTTP service (src/unnamed/part_000, the
variant of server.js carrying the initialization coordinator).

The development shallowly embeds the module-level mutable state of the
server (the flags isDatabaseInitialized and isInitializing, lines 20-21,
and the in-memory sqlite table of line 17) together with the event-loop
semantics of the async function loadCSVData (lines 43-176): every caller
of loadCSVData is represented by the phase of its continuation at its
current await point, and the JavaScript event loop is a scheduler that
resumes one continuation at a time.  Code between two awaits runs
atomically, exactly as in the single-threaded Node.js runtime.  The
sqlite driver serializes all operations of the shared connection, so a
batch of fire-and-forget stmt.run calls issued before a later query is
applied to the table before that query runs; the embedding therefore
applies a flushed batch to the table at the flush point.
-/

/-- A column of the inferred schema: its name and declared SQL type. -/
structure Column where
  name : String
  type : String
deriving Repr, DecidableEq

/-- inferSchema (lines 34-40): one column per header field, every column
typed TEXT regardless of content. -/
def inferSchema (headerRow : List String) : List Column :=
  headerRow.map (fun header => { name := header, type := "TEXT" })

/-- The contents of the one managed sqlite table: schema and rows. -/
structure Table where
  schema : List Column
  rows : List (List String)
deriving Repr, DecidableEq

/-- A parsed CSV source file: the header record and the data records. -/
structure CSVFile where
  headers : List String
  rows : List (List String)
deriving Repr, DecidableEq

/-- csv-parser hands each record to the data handler as a map from header
name to field; the loader reads it back positionally (lines 128 and 145:
headers.map over the record).  A field missing from a ragged row binds
NULL, rendered here as the empty string. -/
def rowValues (headers : List String) (row : List String) : List String :=
  (List.range headers.length).map (fun i => row.getD i "")

/-- The batch size of the insert loop (line 112). -/
def batchSize : Nat := 1000

/-! ### The insert pass as a pure trace (lines 111-163)

`insertTrace` records, for one run of the second streaming pass, the
buffered batch, the running totalRows counter, and the size of every
batch INSERT executed. -/

/-- Accumulator of the insert loop: the buffered batch, the running
totalRows counter (line 114), and the sizes of the executed batches. -/
structure InsertTrace where
  batch : List (List String)
  totalRows : Nat
  batches : List Nat
deriving Repr, DecidableEq

/-- One data event (lines 119-136): buffer the row; once the buffer holds
batchSize rows, run one prepared INSERT per buffered row, clear the
buffer and add the batch size to totalRows. -/
def traceData (st : InsertTrace) (row : List String) : InsertTrace :=
  let batch := st.batch ++ [row]
  if batchSize ≤ batch.length then
    { batch := [], totalRows := st.totalRows + batch.length,
      batches := st.batches ++ [batch.length] }
  else
    { st with batch := batch }

/-- The end event (lines 138-152): flush the remaining partial batch. -/
def traceEnd (st : InsertTrace) : InsertTrace :=
  if 0 < st.batch.length then
    { batch := [], totalRows := st.totalRows + st.batch.length,
      batches := st.batches ++ [st.batch.length] }
  else st

/-- The whole insert pass over the streamed data records. -/
def insertTrace (rows : List (List String)) : InsertTrace :=
  traceEnd (rows.foldl traceData { batch := [], totalRows := 0, batches := [] })

/-! ### The insert pass with an engine oracle (lines 122-152)

Each stmt.run call (lines 129 and 146) is issued without a result
callback, so whether the engine accepts or rejects the row is never
observed by the JavaScript control flow.  `oracleTrace` makes the engine
outcome explicit: `ok k` tells whether the k-th stmt.run call of the pass
actually stores its row.  The stored rows depend on the oracle; the
counter bookkeeping cannot, because no branch inspects the outcome. -/

/-- Accumulator of the oracle-indexed insert loop. -/
structure OracleTrace where
  batch : List (List String)
  totalRows : Nat
  stored : List (List String)
  runs : Nat
deriving Repr, DecidableEq

/-- The rows of one flushed batch that the engine actually stores, given
the outcomes of the stmt.run calls numbered from `start`. -/
def flushStored (ok : Nat → Bool) (start : Nat) (headers : List String)
    (batch : List (List String)) : List (List String) :=
  (batch.enum.filter (fun p => ok (start + p.1))).map (fun p => rowValues headers p.2)

/-- One data event of the oracle-indexed loop (lines 119-136). -/
def oracleData (ok : Nat → Bool) (headers : List String)
    (st : OracleTrace) (row : List String) : OracleTrace :=
  let batch := st.batch ++ [row]
  if batchSize ≤ batch.length then
    { batch := [], totalRows := st.totalRows + batch.length,
      stored := st.stored ++ flushStored ok st.runs headers batch,
      runs := st.runs + batch.length }
  else
    { st with batch := batch }

/-- The end event of the oracle-indexed loop (lines 138-152). -/
def oracleEnd (ok : Nat → Bool) (headers : List String) (st : OracleTrace) : OracleTrace :=
  if 0 < st.batch.length then
    { batch := [], totalRows := st.totalRows + st.batch.length,
      stored := st.stored ++ flushStored ok st.runs headers st.batch,
      runs := st.runs + st.batch.length }
  else st

/-- The whole oracle-indexed insert pass. -/
def oracleTrace (ok : Nat → Bool) (headers : List String)
    (rows : List (List String)) : OracleTrace :=
  oracleEnd ok headers
    (rows.foldl (oracleData ok headers) { batch := [], totalRows := 0, stored := [], runs := 0 })

/-! ### The server state machine -/

/-- The module-level shared state: the two flags of lines 20-21 and the
managed table of the in-memory database (line 17). -/
structure DB where
  isDatabaseInitialized : Bool
  isInitializing : Bool
  table : Option Table
deriving Repr, DecidableEq

/-- The failures a load attempt can surface: an empty or unreadable
header record (lines 96-99), a stream error (lines 93 and 159-161), and
a rejected runQuery call (caught at lines 170-175). -/
inductive LoadError
  | headerFailure
  | streamError
  | queryError
deriving Repr, DecidableEq

/-- The await points of one caller of loadCSVData.

* `polling`: inside the wait loop of lines 50-52.
* `cachedInfo fast`: about to read PRAGMA table_info and COUNT and
  return cached info; `fast := true` for the /api/init fast path of
  lines 206-218, `fast := false` for the poller path of lines 55-67.
  The two read-only queries are collapsed into one resumption.
* `reading`: the first streaming pass of lines 80-94 is in flight.
* `dropping`: DROP TABLE IF EXISTS (line 108) is in flight.
* `creating`: CREATE TABLE (line 109) is in flight.
* `inserting`: the second pass (lines 116-163); `allRows` is the data
  section of the file when the pass started, `pending` the records not
  yet delivered, `batch` and `totalRows` the loop state of lines 113-114.
* `doneOk` / `doneErr`: loadCSVData returned (lines 165-169) or threw
  (line 174). -/
inductive Phase
  | polling
  | cachedInfo (fast : Bool)
  | reading
  | dropping (headers : List String)
  | creating (headers : List String)
  | inserting (headers : List String)
      (allRows pending batch : List (List String)) (totalRows : Nat)
  | doneOk (rowCount : Nat) (schema : List Column)
  | doneErr (e : LoadError)
deriving Repr, DecidableEq

/-- One caller of loadCSVData.  `respond := true` when the caller was
spawned by a POST /api/init handler, which converts the returned value or
thrown error into an HTTP response; the startup auto-init caller of
lines 324-337 swallows both. -/
structure Caller where
  phase : Phase
  respond : Bool
deriving Repr, DecidableEq

/-- The phases during which a caller holds the initialization: from
claiming isInitializing (line 71) until releasing it (lines 156, 97, 160
or 172). -/
def ownerPhase : Phase → Bool
  | .reading => true
  | .dropping _ => true
  | .creating _ => true
  | .inserting _ _ _ _ _ => true
  | _ => false

/-- The JSON envelope of an HTTP response.  `rowCount` is the row count
the handler interpolates into the message; `data` the rows returned by
/api/query. -/
structure Response where
  status : Nat
  success : Bool
  message : String
  rowCount : Option Nat
  schema : Option (List Column)
  data : Option (List (List String))
deriving Repr, DecidableEq

/-- Lines 224-229: missing source file. -/
def resp404 : Response :=
  { status := 404, success := false,
    message := "CSV file not found. Please upload the file first.",
    rowCount := none, schema := none, data := none }

/-- Lines 185-190: the request gate while uninitialized. -/
def resp503 : Response :=
  { status := 503, success := false,
    message := "Database not initialized. Please call /api/init endpoint first.",
    rowCount := none, schema := none, data := none }

/-- The message of a load failure. -/
def errMessage : LoadError → String
  | .headerFailure => "Failed to process CSV headers"
  | .streamError => "stream error"
  | .queryError => "query error"

/-- Lines 238-244: a load failure surfaced by /api/init. -/
def resp500 (e : LoadError) : Response :=
  { status := 500, success := false,
    message := "Error initializing database: " ++ errMessage e,
    rowCount := none, schema := none, data := none }

/-- Lines 210-217: the /api/init fast path answer. -/
def respAlready (n : Nat) (schema : List Column) : Response :=
  { status := 200, success := true,
    message := "Database already initialized with " ++ toString n ++ " rows in table orders",
    rowCount := some n, schema := some schema, data := none }

/-- Lines 233-237: the answer after a completed load. -/
def respLoaded (n : Nat) (schema : List Column) : Response :=
  { status := 200, success := true,
    message := "Successfully loaded " ++ toString n ++ " rows into table orders",
    rowCount := some n, schema := some schema, data := none }

/-- Lines 269-274: a successful /api/query answer; the modelled query is
the round-trip SELECT star FROM orders, which the engine answers with the
table rows in insertion order. -/
def respQuery (rows : List (List String)) : Response :=
  { status := 200, success := true,
    message := "Query executed successfully. " ++ toString rows.length ++ " rows returned.",
    rowCount := some rows.length, schema := none, data := some rows }

/-- Lines 275-281: the engine rejects the query (no such table). -/
def respQueryErr : Response :=
  { status := 400, success := false,
    message := "Error executing query: no such table: orders",
    rowCount := none, schema := none, data := none }

/-- Lines 314-321: the ungated health endpoint. -/
def respHealth : Response :=
  { status := 200, success := true, message := "Server is running",
    rowCount := none, schema := none, data := none }

/-- Lines 198-200: the root route, registered after the gate. -/
def respRoot : Response :=
  { status := 200, success := true, message := "backend is running !",
    rowCount := none, schema := none, data := none }

/-- The whole server: shared database state, the CSV file currently on
disk, the in-flight callers of loadCSVData, the input of the most recent
successfully completed load (a ghost field recorded at the publish point,
line 155), and the responses sent so far. -/
structure Sys where
  db : DB
  file : Option CSVFile
  callers : List Caller
  lastLoad : Option (List String × List (List String))
  log : List Response
deriving Repr, DecidableEq

/-- Append one response to the log. -/
def pushLog (s : Sys) (r : Response) : Sys :=
  { s with log := s.log ++ [r] }

/-- checkDatabaseReady (lines 179-193): the gate passes iff the path is
exempt or the database is initialized. -/
def checkDatabaseReady (path : String) (db : DB) : Bool :=
  path == "/api/init" || path == "/health" || db.isDatabaseInitialized

/-- The events the scheduler can deliver. `initRequest` dispatches a POST
/api/init; `request path` dispatches any other route through the gate;
`resume i oc` resumes caller i at its awaited continuation, `oc` giving
the outcome of the awaited stream or engine operation (none = success);
`setFile` is an external change of the file on disk. -/
inductive Act
  | initRequest
  | request (path : String)
  | resume (i : Nat) (oc : Option LoadError)
  | setFile (f : Option CSVFile)
deriving Repr, DecidableEq

/-- Dispatch of a request to a route other than POST /api/init: the gate
middleware of lines 179-196, then the matched handler.  The modelled
/api/query body is the round-trip SELECT star FROM orders. -/
def stepRequest (path : String) (s : Sys) : Sys :=
  if path == "/api/init" || path == "/health" then
    -- lines 181-183: the gate skips these paths
    if path == "/health" then pushLog s respHealth else s
  else if !s.db.isDatabaseInitialized then
    -- lines 185-190
    pushLog s resp503
  else if path == "/api/query" then
    match s.db.table with
    | some t => pushLog s (respQuery t.rows)
    | none => pushLog s respQueryErr
  else
    pushLog s respRoot

/-- POST /api/init (lines 203-231): the synchronous prefix of the
handler, running through the first await of the loadCSVData call it
spawns.  Node dispatches the handler synchronously, so the fast-path
check, the existsSync check and the isInitializing check of line 46
happen in one atomic segment. -/
def stepInit (s : Sys) : Sys :=
  if s.db.isDatabaseInitialized && !s.db.isInitializing then
    -- lines 206-218: fast path; PRAGMA and COUNT are awaited first
    { s with callers := s.callers ++ [{ phase := .cachedInfo true, respond := true }] }
  else if s.file.isNone then
    -- lines 224-229
    pushLog s resp404
  else if s.db.isInitializing then
    -- loadCSVData lines 46-52: the caller joins the wait loop
    { s with callers := s.callers ++ [{ phase := .polling, respond := true }] }
  else
    -- loadCSVData line 71: the caller claims the initialization
    { s with db := { s.db with isInitializing := true },
             callers := s.callers ++ [{ phase := .reading, respond := true }] }

/-- A load failure (lines 96-99, 159-161, 170-175): isInitializing is
reset, loadCSVData throws to this caller alone, and its /api/init
handler, when present, answers 500. -/
def failLoad (db : DB) (last : Option (List String × List (List String)))
    (c : Caller) (e : LoadError) :
    DB × Option (List String × List (List String)) × Caller × Option Response :=
  ({ db with isInitializing := false }, last,
   { c with phase := .doneErr e },
   if c.respond then some (resp500 e) else none)

/-- Execute the prepared INSERTs of one flushed batch (lines 124-132 and
141-149) against the table. -/
def pushRows (tbl : Option Table) (headers : List String)
    (batch : List (List String)) : Option Table :=
  match tbl with
  | some t => some { t with rows := t.rows ++ batch.map (rowValues headers) }
  | none => none

/-- Resume one caller of loadCSVData at its awaited continuation.
Returns the new shared state, the new ghost last-load record, the
caller's new phase, and the HTTP response emitted, if any. -/
def resumeCaller (db : DB) (file : Option CSVFile)
    (last : Option (List String × List (List String)))
    (c : Caller) (oc : Option LoadError) :
    DB × Option (List String × List (List String)) × Caller × Option Response :=
  match c.phase with
  | .polling =>
      if db.isInitializing then
        -- lines 50-52: still initializing, sleep again
        (db, last, c, none)
      else if db.isDatabaseInitialized then
        -- lines 55-58: completed; go read the cached info
        (db, last, { c with phase := .cachedInfo false }, none)
      else
        -- the prior attempt failed: fall through to line 71 and claim
        ({ db with isInitializing := true }, last,
         { c with phase := .reading }, none)
  | .cachedInfo fast =>
      (match db.table with
       | some t =>
          (db, last, { c with phase := .doneOk t.rows.length t.schema },
           if c.respond then
             some (if fast then respAlready t.rows.length t.schema
                   else respLoaded t.rows.length t.schema)
           else none)
       | none =>
          -- COUNT on a missing table rejects; the loadCSVData catch of
          -- line 172 clears isInitializing, the handler catch does not
          ((if fast then db else { db with isInitializing := false }), last,
           { c with phase := .doneErr .queryError },
           if c.respond then some (resp500 .queryError) else none))
  | .reading =>
      (match oc with
       | some e => failLoad db last c e
       | none =>
         match file with
         | none =>
           -- createReadStream on an absent file emits an error event
           failLoad db last c .streamError
         | some f =>
           if f.headers.length = 0 then
             -- lines 96-99
             failLoad db last c .headerFailure
           else
             -- line 108: issue DROP TABLE IF EXISTS
             (db, last, { c with phase := .dropping f.headers }, none))
  | .dropping hs =>
      (match oc with
       | some e => failLoad db last c e
       | none =>
         -- line 109: the table is gone, issue CREATE TABLE
         ({ db with table := none }, last,
          { c with phase := .creating hs }, none))
  | .creating hs =>
      (match oc with
       | some e => failLoad db last c e
       | none =>
         -- lines 111-118: empty table created, start the second pass
         let rows := match file with | some f => f.rows | none => []
         ({ db with table := some { schema := inferSchema hs, rows := [] } },
          last,
          { c with phase := .inserting hs rows rows [] 0 }, none))
  | .inserting hs allRows pending batch totalRows =>
      (match oc with
       | some e => failLoad db last c e
       | none =>
         match pending with
         | row :: rest =>
           -- lines 119-136: one data event
           let batch2 := batch ++ [row]
           if batchSize ≤ batch2.length then
             ({ db with table := pushRows db.table hs batch2 }, last,
              { c with phase := .inserting hs allRows rest [] (totalRows + batch2.length) },
              none)
           else
             (db, last,
              { c with phase := .inserting hs allRows rest batch2 totalRows }, none)
         | [] =>
           -- lines 138-158: the end event; flush, then publish success
           let db2 :=
             if 0 < batch.length then { db with table := pushRows db.table hs batch }
             else db
           let total2 := if 0 < batch.length then totalRows + batch.length else totalRows
           ({ db2 with isDatabaseInitialized := true, isInitializing := false },
            some (hs, allRows),
            { c with phase := .doneOk total2 (inferSchema hs) },
            if c.respond then some (respLoaded total2 (inferSchema hs)) else none))
  | .doneOk _ _ => (db, last, c, none)
  | .doneErr _ => (db, last, c, none)

/-- Resume caller i; out-of-range resumptions do nothing. -/
def stepResume (i : Nat) (oc : Option LoadError) (s : Sys) : Sys :=
  match s.callers[i]? with
  | none => s
  | some c =>
      match resumeCaller s.db s.file s.lastLoad c oc with
      | (db2, last2, c2, resp) =>
          { s with db := db2, lastLoad := last2,
                   callers := s.callers.set i c2,
                   log := s.log ++ resp.toList }

/-- One scheduler event. -/
def step (a : Act) (s : Sys) : Sys :=
  match a with
  | .initRequest => stepInit s
  | .request path => stepRequest path s
  | .resume i oc => stepResume i oc s
  | .setFile f => { s with file := f }

/-- A whole execution: the events in order. -/
def run (s : Sys) (acts : List Act) : Sys :=
  acts.foldl (fun s a => step a s) s

/-- Process start (lines 17-21 and the auto-init of lines 324-337): the
flags start false; if the CSV file is present, the startup caller invokes
loadCSVData, whose synchronous prefix claims the initialization at once. -/
def init0 (f : Option CSVFile) : Sys :=
  match f with
  | some _ =>
      { db := { isDatabaseInitialized := false, isInitializing := true, table := none },
        file := f,
        callers := [{ phase := .reading, respond := false }],
        lastLoad := none, log := [] }
  | none =>
      { db := { isDatabaseInitialized := false, isInitializing := false, table := none },
        file := none, callers := [], lastLoad := none, log := [] }

/-- The number of callers currently holding the initialization. -/
def ownersCount (s : Sys) : Nat :=
  s.callers.countP (fun c => ownerPhase c.phase)

/-! ### Concrete executions used by witnesses and counterexamples -/

/-- A one-column, one-row CSV file. -/
def fileA : CSVFile := { headers := ["a"], rows := [["x"]] }

/-- The five resumptions that drive the startup caller of `init0 (some fileA)`
through a complete successful load: first pass, DROP, CREATE, one data
event, end event. -/
def loadActsA : List Act :=
  [.resume 0 none, .resume 0 none, .resume 0 none, .resume 0 none, .resume 0 none]

/-- After a successful load, delete the file from disk and call
POST /api/init (the spawned fast-path caller sits at index 1). -/
def acts6 : List Act :=
  loadActsA ++ [.setFile none, .initRequest, .resume 1 none]

/-- The round-trip file: header [a, b], data rows [1, x] and [2, y]. -/
def fileRT : CSVFile := { headers := ["a", "b"], rows := [["1", "x"], ["2", "y"]] }

/-- Load fileRT completely (six resumptions of the startup caller), then
dispatch POST /api/query with the round-trip SELECT. -/
def actsRT : List Act :=
  [.resume 0 none, .resume 0 none, .resume 0 none, .resume 0 none, .resume 0 none,
   .resume 0 none, .request "/api/query"]

/-! ### List helper lemmas -/

theorem lt_length_of_getElem?_some {α : Type} {l : List α} {i : Nat} {a : α}
    (h : l[i]? = some a) : i < l.length := by
  obtain ⟨h1, -⟩ := List.getElem?_eq_some_iff.1 h
  exact h1

theorem getElem?_singleton_some {α : Type} {a b : α} {k : Nat}
    (h : [a][k]? = some b) : b = a := by
  cases k with
  | zero => simp only [List.getElem?_cons_zero, Option.some.injEq] at h; exact h.symm
  | succ k => simp at h

theorem getElem?_append_cases {α : Type} {l t : List α} {i : Nat} {b : α}
    (h : (l ++ t)[i]? = some b) :
    (i < l.length ∧ l[i]? = some b) ∨ (l.length ≤ i ∧ t[i - l.length]? = some b) := by
  by_cases hi : i < l.length
  · exact Or.inl ⟨hi, by rwa [List.getElem?_append_left hi] at h⟩
  · exact Or.inr ⟨Nat.le_of_not_lt hi,
      by rwa [List.getElem?_append_right (Nat.le_of_not_lt hi)] at h⟩

theorem countP_set_eq {α : Type} (p : α → Bool) :
    ∀ (l : List α) (i : Nat) (a : α), l[i]? = some a → ∀ b : α,
      (l.set i b).countP p + (if p a then 1 else 0)
        = l.countP p + (if p b then 1 else 0) := by
  intro l
  induction l with
  | nil => intro i a h b; simp at h
  | cons x xs ih =>
      intro i a h b
      cases i with
      | zero =>
          simp only [List.getElem?_cons_zero, Option.some.injEq] at h
          subst h
          simp only [List.set_cons_zero, List.countP_cons]
          omega
      | succ i =>
          simp only [List.getElem?_cons_succ] at h
          have ih2 := ih i a h b
          simp only [List.set_cons_succ, List.countP_cons]
          omega

theorem countP_le_one_getElem? {α : Type} (p : α → Bool) :
    ∀ (l : List α), l.countP p ≤ 1 → ∀ (i j : Nat) (a b : α),
      l[i]? = some a → p a = true → l[j]? = some b → p b = true → i = j := by
  intro l
  induction l with
  | nil => intro _ i j a b ha; simp at ha
  | cons x xs ih =>
      intro hle i j a b ha hpa hb hpb
      cases i with
      | zero =>
          cases j with
          | zero => rfl
          | succ j =>
              exfalso
              simp only [List.getElem?_cons_zero, Option.some.injEq] at ha
              subst ha
              simp only [List.getElem?_cons_succ] at hb
              have h1 : 0 < xs.countP p :=
                List.countP_pos_iff.2 ⟨b, List.getElem?_mem hb, hpb⟩
              have h2 := List.countP_cons (p := p) x xs
              simp only [hpa, if_true] at h2
              omega
      | succ i =>
          cases j with
          | zero =>
              exfalso
              simp only [List.getElem?_cons_zero, Option.some.injEq] at hb
              subst hb
              simp only [List.getElem?_cons_succ] at ha
              have h1 : 0 < xs.countP p :=
                List.countP_pos_iff.2 ⟨a, List.getElem?_mem ha, hpa⟩
              have h2 := List.countP_cons (p := p) x xs
              simp only [hpb, if_true] at h2
              omega
          | succ j =>
              simp only [List.getElem?_cons_succ] at ha hb
              have h2 := List.countP_cons (p := p) x xs
              have h3 : xs.countP p ≤ 1 := by omega
              exact congrArg Nat.succ (ih h3 i j a b ha hpa hb hpb)

/-! ### The coordination invariant

`SysInv` is the inductive invariant of the server: it carries the mutual
exclusion of C1 (the number of callers holding the initialization equals
one exactly while isInitializing is set), the monotone publication
discipline of C2 (whenever isDatabaseInitialized is set, the table holds
exactly the translation of the most recent successfully loaded file),
and the bookkeeping facts about in-flight phases needed to push these
through every scheduler step. -/

structure SysInv (s : Sys) : Prop where
  owner_count : ownersCount s = (if s.db.isInitializing then 1 else 0)
  ready_not_init : s.db.isInitializing = true → s.db.isDatabaseInitialized = false
  ready_table : s.db.isDatabaseInitialized = true →
    ∃ hs rows, s.lastLoad = some (hs, rows) ∧
      s.db.table = some { schema := inferSchema hs, rows := rows.map (rowValues hs) }
  cached_ready : ∀ (i : Nat) (c : Caller) (fast : Bool),
    s.callers[i]? = some c → c.phase = .cachedInfo fast →
    s.db.isDatabaseInitialized = true
  inserting_inv : ∀ (i : Nat) (c : Caller) (hs : List String)
    (allRows pending batch : List (List String)) (total : Nat),
    s.callers[i]? = some c → c.phase = .inserting hs allRows pending batch total →
      batch.length < batchSize ∧
      ∃ done, allRows = done ++ batch ++ pending ∧ total = done.length ∧
        s.db.table = some { schema := inferSchema hs, rows := done.map (rowValues hs) }

/-- A caller in an owner phase forces isInitializing. -/
theorem owner_initializing (s : Sys) (h : SysInv s) (i : Nat) (c : Caller)
    (hc : s.callers[i]? = some c) (ho : ownerPhase c.phase = true) :
    s.db.isInitializing = true := by
  have hpos : 0 < ownersCount s :=
    List.countP_pos_iff.2 ⟨c, List.getElem?_mem hc, ho⟩
  have hoc := h.owner_count
  cases hb : s.db.isInitializing with
  | true => rfl
  | false => rw [hb] at hoc; simp at hoc; omega

/-- A caller in an owner phase forces the database unpublished. -/
theorem owner_not_ready (s : Sys) (h : SysInv s) (i : Nat) (c : Caller)
    (hc : s.callers[i]? = some c) (ho : ownerPhase c.phase = true) :
    s.db.isDatabaseInitialized = false :=
  h.ready_not_init (owner_initializing s h i c hc ho)

/-- At most one caller is in an owner phase at a time. -/
theorem owner_unique (s : Sys) (h : SysInv s) {i j : Nat} {a b : Caller}
    (ha : s.callers[i]? = some a) (hpa : ownerPhase a.phase = true)
    (hb : s.callers[j]? = some b) (hpb : ownerPhase b.phase = true) : i = j := by
  have hinit := owner_initializing s h i a ha hpa
  have hcount : ownersCount s ≤ 1 := by
    rw [h.owner_count, hinit]; simp
  exact countP_le_one_getElem? _ s.callers hcount i j a b ha hpa hb hpb

/-! ### Preservation of the invariant -/

theorem inv_pushLog (s : Sys) (r : Response) (h : SysInv s) : SysInv (pushLog s r) :=
  ⟨h.owner_count, h.ready_not_init, h.ready_table, h.cached_ready, h.inserting_inv⟩

theorem inv_setFile (s : Sys) (f : Option CSVFile) (h : SysInv s) :
    SysInv { s with file := f } :=
  ⟨h.owner_count, h.ready_not_init, h.ready_table, h.cached_ready, h.inserting_inv⟩

theorem inv_stepRequest (path : String) (s : Sys) (h : SysInv s) :
    SysInv (stepRequest path s) := by
  unfold stepRequest
  repeat' split
  any_goals exact h
  all_goals exact inv_pushLog _ _ h

/-- Preservation: a load failure step (failLoad) keeps the invariant. -/
theorem inv_fail_update (s : Sys) (h : SysInv s) (i : Nat) (c : Caller) (e : LoadError)
    (hci : s.callers[i]? = some c) (hown : ownerPhase c.phase = true)
    (L : List Response) :
    SysInv { s with db := { s.db with isInitializing := false },
                    callers := s.callers.set i { c with phase := .doneErr e },
                    log := L } := by
  have hlen := lt_length_of_getElem?_some hci
  have hinit := owner_initializing s h i c hci hown
  have hnr := owner_not_ready s h i c hci hown
  have hoc := h.owner_count
  rw [hinit] at hoc
  refine ⟨?_, ?_, ?_, ?_, ?_⟩
  · have hcs := countP_set_eq (fun x => ownerPhase x.phase) s.callers i c hci
      { c with phase := .doneErr e }
    have hpd : ownerPhase ({ c with phase := .doneErr e } : Caller).phase = false := rfl
    simp only [hown, hpd, if_true, Bool.false_eq_true, if_false] at hcs
    simp only [ownersCount] at hoc ⊢
    simp only [if_true] at hoc
    simp only [Bool.false_eq_true, if_false]
    omega
  · intro hx
    simp at hx
  · intro hx
    have hx2 : s.db.isDatabaseInitialized = true := hx
    rw [hnr] at hx2
    simp at hx2
  · intro j c2 fast hj hph
    by_cases hij : i = j
    · subst hij
      rw [List.getElem?_set_self hlen] at hj
      injection hj with hj
      subst hj
      simp at hph
    · rw [List.getElem?_set_ne hij] at hj
      exact absurd (h.cached_ready j c2 fast hj hph) (by rw [hnr]; simp)
  · intro j c2 hs aR pd bt tt hj hph
    by_cases hij : i = j
    · subst hij
      rw [List.getElem?_set_self hlen] at hj
      injection hj with hj
      subst hj
      simp at hph
    · rw [List.getElem?_set_ne hij] at hj
      have hown2 : ownerPhase c2.phase = true := by rw [hph]; rfl
      exact absurd (owner_unique s h hci hown hj hown2) hij

/-- Preservation: the unique owner moves to another non-inserting owner
phase, possibly replacing the table. -/
theorem inv_owner_step (s : Sys) (h : SysInv s) (i : Nat) (c : Caller)
    (hci : s.callers[i]? = some c) (hown : ownerPhase c.phase = true)
    (tbl : Option Table) (ph : Phase) (hown2 : ownerPhase ph = true)
    (hnc : ∀ fast, ph ≠ .cachedInfo fast)
    (hni : ∀ hs aR pd bt tt, ph ≠ .inserting hs aR pd bt tt) :
    SysInv { s with db := { s.db with table := tbl },
                    callers := s.callers.set i { c with phase := ph } } := by
  have hlen := lt_length_of_getElem?_some hci
  have hinit := owner_initializing s h i c hci hown
  have hnr := owner_not_ready s h i c hci hown
  refine ⟨?_, ?_, ?_, ?_, ?_⟩
  · have hcs := countP_set_eq (fun x => ownerPhase x.phase) s.callers i c hci
      { c with phase := ph }
    simp only [hown, if_true] at hcs
    have hph2 : ownerPhase ({ c with phase := ph } : Caller).phase = true := hown2
    simp only [hph2, if_true] at hcs
    have hoc := h.owner_count
    simp only [ownersCount] at hoc ⊢
    omega
  · intro hx
    exact h.ready_not_init hx
  · intro hx
    have hx2 : s.db.isDatabaseInitialized = true := hx
    rw [hnr] at hx2
    simp at hx2
  · intro j c2 fast hj hph
    by_cases hij : i = j
    · subst hij
      rw [List.getElem?_set_self hlen] at hj
      injection hj with hj
      subst hj
      exact absurd hph (hnc fast)
    · rw [List.getElem?_set_ne hij] at hj
      exact absurd (h.cached_ready j c2 fast hj hph) (by rw [hnr]; simp)
  · intro j c2 hs aR pd bt tt hj hph
    by_cases hij : i = j
    · subst hij
      rw [List.getElem?_set_self hlen] at hj
      injection hj with hj
      subst hj
      exact absurd hph (hni hs aR pd bt tt)
    · rw [List.getElem?_set_ne hij] at hj
      have hown3 : ownerPhase c2.phase = true := by rw [hph]; rfl
      exact absurd (owner_unique s h hci hown hj hown3) hij

/-- Preservation: a non-owner caller moves to another non-owner,
non-inserting phase, with the shared database state untouched. -/
theorem inv_plain_step (s : Sys) (h : SysInv s) (i : Nat) (c : Caller)
    (hci : s.callers[i]? = some c)
    (hnown : ownerPhase c.phase = false)
    (ph : Phase) (hnown2 : ownerPhase ph = false)
    (hcached : ∀ fast, ph = .cachedInfo fast → s.db.isDatabaseInitialized = true)
    (hni : ∀ hs aR pd bt tt, ph ≠ .inserting hs aR pd bt tt)
    (L : List Response) :
    SysInv { s with callers := s.callers.set i { c with phase := ph },
                    log := L } := by
  have hlen := lt_length_of_getElem?_some hci
  refine ⟨?_, ?_, ?_, ?_, ?_⟩
  · have hcs := countP_set_eq (fun x => ownerPhase x.phase) s.callers i c hci
      { c with phase := ph }
    simp only [hnown, if_false, Bool.false_eq_true] at hcs
    have hph2 : ownerPhase ({ c with phase := ph } : Caller).phase = false := hnown2
    simp only [hph2, if_false, Bool.false_eq_true] at hcs
    have hoc := h.owner_count
    simp only [ownersCount] at hoc ⊢
    omega
  · exact h.ready_not_init
  · exact h.ready_table
  · intro j c2 fast hj hph
    by_cases hij : i = j
    · subst hij
      rw [List.getElem?_set_self hlen] at hj
      injection hj with hj
      subst hj
      exact hcached fast hph
    · rw [List.getElem?_set_ne hij] at hj
      exact h.cached_ready j c2 fast hj hph
  · intro j c2 hs aR pd bt tt hj hph
    by_cases hij : i = j
    · subst hij
      rw [List.getElem?_set_self hlen] at hj
      injection hj with hj
      subst hj
      exact absurd hph (hni hs aR pd bt tt)
    · rw [List.getElem?_set_ne hij] at hj
      exact h.inserting_inv j c2 hs aR pd bt tt hj hph

/-- Preservation: a polling caller claims the initialization after a
failed attempt (loadCSVData line 71 reached from the wait loop). -/
theorem inv_claim_step (s : Sys) (h : SysInv s) (i : Nat) (c : Caller)
    (hci : s.callers[i]? = some c)
    (hnown : ownerPhase c.phase = false)
    (hii : s.db.isInitializing = false)
    (hdi : s.db.isDatabaseInitialized = false) :
    SysInv { s with db := { s.db with isInitializing := true },
                    callers := s.callers.set i { c with phase := .reading } } := by
  have hlen := lt_length_of_getElem?_some hci
  have hoc := h.owner_count
  rw [hii] at hoc
  simp only [Bool.false_eq_true, if_false] at hoc
  refine ⟨?_, ?_, ?_, ?_, ?_⟩
  · have hcs := countP_set_eq (fun x => ownerPhase x.phase) s.callers i c hci
      { c with phase := .reading }
    simp only [hnown, if_false, Bool.false_eq_true] at hcs
    have hph2 : ownerPhase ({ c with phase := .reading } : Caller).phase = true := rfl
    simp only [hph2, if_true] at hcs
    simp only [ownersCount] at hoc ⊢
    simp only [if_true]
    omega
  · intro _
    exact hdi
  · intro hx
    have hx2 : s.db.isDatabaseInitialized = true := hx
    rw [hdi] at hx2
    simp at hx2
  · intro j c2 fast hj hph
    by_cases hij : i = j
    · subst hij
      rw [List.getElem?_set_self hlen] at hj
      injection hj with hj
      subst hj
      simp at hph
    · rw [List.getElem?_set_ne hij] at hj
      exact absurd (h.cached_ready j c2 fast hj hph) (by rw [hdi]; simp)
  · intro j c2 hs aR pd bt tt hj hph
    by_cases hij : i = j
    · subst hij
      rw [List.getElem?_set_self hlen] at hj
      injection hj with hj
      subst hj
      simp at hph
    · rw [List.getElem?_set_ne hij] at hj
      have hown3 : ownerPhase c2.phase = true := by rw [hph]; rfl
      have hpos : 0 < ownersCount s :=
        List.countP_pos_iff.2 ⟨c2, List.getElem?_mem hj, hown3⟩
      simp only [ownersCount] at hpos hoc
      omega

/-- Preservation: spawning a new caller in a non-owner phase, with the
database state untouched. -/
theorem inv_spawn (s : Sys) (h : SysInv s) (ph : Phase) (r : Bool)
    (hnown : ownerPhase ph = false)
    (hcached : ∀ fast, ph = .cachedInfo fast → s.db.isDatabaseInitialized = true)
    (hni : ∀ hs aR pd bt tt, ph ≠ .inserting hs aR pd bt tt) :
    SysInv { s with callers := s.callers ++ [{ phase := ph, respond := r }] } := by
  refine ⟨?_, h.ready_not_init, h.ready_table, ?_, ?_⟩
  · have hoc := h.owner_count
    have hnew : List.countP (fun c : Caller => ownerPhase c.phase)
        [({ phase := ph, respond := r } : Caller)] = 0 := by
      simp [List.countP_cons, hnown]
    simp only [ownersCount, List.countP_append] at hoc ⊢
    omega
  · intro j c2 fast hj hph
    rcases getElem?_append_cases hj with ⟨hlt, hj2⟩ | ⟨hge, hj2⟩
    · exact h.cached_ready j c2 fast hj2 hph
    · have hc2 := getElem?_singleton_some hj2
      subst hc2
      exact hcached fast hph
  · intro j c2 hs aR pd bt tt hj hph
    rcases getElem?_append_cases hj with ⟨hlt, hj2⟩ | ⟨hge, hj2⟩
    · exact h.inserting_inv j c2 hs aR pd bt tt hj2 hph
    · have hc2 := getElem?_singleton_some hj2
      subst hc2
      exact absurd hph (hni hs aR pd bt tt)

/-- Preservation: a fresh /api/init caller claims the initialization
(loadCSVData line 71 reached directly from line 46). -/
theorem inv_spawn_claim (s : Sys) (h : SysInv s) (r : Bool)
    (hii : s.db.isInitializing = false)
    (hdi : s.db.isDatabaseInitialized = false) :
    SysInv { s with db := { s.db with isInitializing := true },
                    callers := s.callers ++ [{ phase := .reading, respond := r }] } := by
  have hoc := h.owner_count
  rw [hii] at hoc
  simp only [Bool.false_eq_true, if_false] at hoc
  refine ⟨?_, fun _ => hdi, ?_, ?_, ?_⟩
  · have hnew : List.countP (fun c : Caller => ownerPhase c.phase)
        [({ phase := Phase.reading, respond := r } : Caller)] = 1 := by
      simp [List.countP_cons]
      rfl
    simp only [ownersCount, List.countP_append] at hoc ⊢
    simp only [if_true]
    omega
  · intro hx
    have hx2 : s.db.isDatabaseInitialized = true := hx
    rw [hdi] at hx2
    simp at hx2
  · intro j c2 fast hj hph
    rcases getElem?_append_cases hj with ⟨hlt, hj2⟩ | ⟨hge, hj2⟩
    · exact absurd (h.cached_ready j c2 fast hj2 hph) (by rw [hdi]; simp)
    · have hc2 := getElem?_singleton_some hj2
      subst hc2
      cases hph
  · intro j c2 hs aR pd bt tt hj hph
    rcases getElem?_append_cases hj with ⟨hlt, hj2⟩ | ⟨hge, hj2⟩
    · have hown3 : ownerPhase c2.phase = true := by rw [hph]; rfl
      have hpos : 0 < ownersCount s :=
        List.countP_pos_iff.2 ⟨c2, List.getElem?_mem hj2, hown3⟩
      simp only [ownersCount] at hpos hoc
      omega
    · have hc2 := getElem?_singleton_some hj2
      subst hc2
      cases hph

/-- The /api/init dispatch preserves the invariant. -/
theorem inv_stepInit (s : Sys) (h : SysInv s) : SysInv (stepInit s) := by
  unfold stepInit
  split
  · rename_i hfast
    simp only [Bool.and_eq_true, Bool.not_eq_true'] at hfast
    exact inv_spawn s h (.cachedInfo true) true rfl
      (fun _ _ => hfast.1) (fun _ _ _ _ _ hx => by cases hx)
  · split
    · exact inv_pushLog _ _ h
    · split
      · exact inv_spawn s h .polling true rfl
          (fun fast hx => by cases hx) (fun _ _ _ _ _ hx => by cases hx)
      · rename_i hfast hfile hii
        simp only [Bool.not_eq_true] at hii
        have hdi : s.db.isDatabaseInitialized = false := by
          cases hb : s.db.isDatabaseInitialized with
          | false => rfl
          | true => rw [hb, hii] at hfast; simp at hfast
        exact inv_spawn_claim s h true hii hdi

/-- Preservation: the owner finishes CREATE TABLE and starts the second
streaming pass with an empty buffer (lines 109-118). -/
theorem inv_create_step (s : Sys) (h : SysInv s) (i : Nat) (c : Caller)
    (hci : s.callers[i]? = some c) (hown : ownerPhase c.phase = true)
    (hs : List String) (R : List (List String)) :
    SysInv { s with
      db := { s.db with table := some { schema := inferSchema hs, rows := [] } },
      callers := s.callers.set i { c with phase := .inserting hs R R [] 0 } } := by
  have hlen := lt_length_of_getElem?_some hci
  have hnr := owner_not_ready s h i c hci hown
  refine ⟨?_, h.ready_not_init, ?_, ?_, ?_⟩
  · have hcs := countP_set_eq (fun x => ownerPhase x.phase) s.callers i c hci
      { c with phase := .inserting hs R R [] 0 }
    simp only [hown, if_true] at hcs
    have hph2 : ownerPhase ({ c with phase := .inserting hs R R [] 0 } : Caller).phase
        = true := rfl
    simp only [hph2, if_true] at hcs
    have hoc := h.owner_count
    simp only [ownersCount] at hoc ⊢
    omega
  · intro hx
    have hx2 : s.db.isDatabaseInitialized = true := hx
    rw [hnr] at hx2
    simp at hx2
  · intro j c2 fast hj hph
    by_cases hij : i = j
    · subst hij
      rw [List.getElem?_set_self hlen] at hj
      injection hj with hj
      subst hj
      cases hph
    · rw [List.getElem?_set_ne hij] at hj
      exact absurd (h.cached_ready j c2 fast hj hph) (by rw [hnr]; simp)
  · intro j c2 hs2 aR pd bt tt hj hph
    by_cases hij : i = j
    · subst hij
      rw [List.getElem?_set_self hlen] at hj
      injection hj with hj
      subst hj
      have hph2 : Phase.inserting hs R R [] 0 = Phase.inserting hs2 aR pd bt tt := hph
      cases hph2
      refine ⟨by simp [batchSize], [], by simp, rfl, by simp⟩
    · rw [List.getElem?_set_ne hij] at hj
      have hown3 : ownerPhase c2.phase = true := by rw [hph]; rfl
      exact absurd (owner_unique s h hci hown hj hown3) hij

/-- Preservation: a data event that fills the batch and flushes it
(lines 122-136). -/
theorem inv_insert_flush (s : Sys) (h : SysInv s) (i : Nat) (c : Caller)
    (hci : s.callers[i]? = some c) (hs : List String)
    (aR bt : List (List String)) (tt : Nat) (row : List String)
    (rest : List (List String))
    (hph : c.phase = .inserting hs aR (row :: rest) bt tt) :
    SysInv { s with
      db := { s.db with table := pushRows s.db.table hs (bt ++ [row]) },
      callers := s.callers.set i
        { c with phase := .inserting hs aR rest [] (tt + (bt ++ [row]).length) } } := by
  have hown : ownerPhase c.phase = true := by rw [hph]; rfl
  have hlen := lt_length_of_getElem?_some hci
  have hnr := owner_not_ready s h i c hci hown
  obtain ⟨hblt, done, haR, htt, htab⟩ :=
    h.inserting_inv i c hs aR (row :: rest) bt tt hci hph
  refine ⟨?_, h.ready_not_init, ?_, ?_, ?_⟩
  · have hcs := countP_set_eq (fun x => ownerPhase x.phase) s.callers i c hci
      { c with phase := .inserting hs aR rest [] (tt + (bt ++ [row]).length) }
    simp only [hown, if_true] at hcs
    have hph2 : ownerPhase ({ c with
        phase := .inserting hs aR rest [] (tt + (bt ++ [row]).length) } : Caller).phase
        = true := rfl
    simp only [hph2, if_true] at hcs
    have hoc := h.owner_count
    simp only [ownersCount] at hoc ⊢
    omega
  · intro hx
    have hx2 : s.db.isDatabaseInitialized = true := hx
    rw [hnr] at hx2
    simp at hx2
  · intro j c2 fast hj hph2
    by_cases hij : i = j
    · subst hij
      rw [List.getElem?_set_self hlen] at hj
      injection hj with hj
      subst hj
      cases hph2
    · rw [List.getElem?_set_ne hij] at hj
      exact absurd (h.cached_ready j c2 fast hj hph2) (by rw [hnr]; simp)
  · intro j c2 hs2 aR2 pd2 bt2 tt2 hj hph2
    by_cases hij : i = j
    · subst hij
      rw [List.getElem?_set_self hlen] at hj
      injection hj with hj
      subst hj
      have hph3 : Phase.inserting hs aR rest [] (tt + (bt ++ [row]).length)
          = Phase.inserting hs2 aR2 pd2 bt2 tt2 := hph2
      cases hph3
      refine ⟨by simp [batchSize], done ++ (bt ++ [row]), ?_, ?_, ?_⟩
      · rw [haR]
        simp [List.append_assoc]
      · simp [htt, List.length_append]
      · rw [htab]
        simp [pushRows, List.map_append]
    · rw [List.getElem?_set_ne hij] at hj
      have hown3 : ownerPhase c2.phase = true := by rw [hph2]; rfl
      exact absurd (owner_unique s h hci hown hj hown3) hij

/-- Preservation: a data event that only buffers the row
(lines 119-121). -/
theorem inv_insert_buffer (s : Sys) (h : SysInv s) (i : Nat) (c : Caller)
    (hci : s.callers[i]? = some c) (hs : List String)
    (aR bt : List (List String)) (tt : Nat) (row : List String)
    (rest : List (List String))
    (hph : c.phase = .inserting hs aR (row :: rest) bt tt)
    (hflush : ¬ batchSize ≤ (bt ++ [row]).length) :
    SysInv { s with
      callers := s.callers.set i
        { c with phase := .inserting hs aR rest (bt ++ [row]) tt } } := by
  have hown : ownerPhase c.phase = true := by rw [hph]; rfl
  have hlen := lt_length_of_getElem?_some hci
  obtain ⟨hblt, done, haR, htt, htab⟩ :=
    h.inserting_inv i c hs aR (row :: rest) bt tt hci hph
  refine ⟨?_, h.ready_not_init, h.ready_table, ?_, ?_⟩
  · have hcs := countP_set_eq (fun x => ownerPhase x.phase) s.callers i c hci
      { c with phase := .inserting hs aR rest (bt ++ [row]) tt }
    simp only [hown, if_true] at hcs
    have hph2 : ownerPhase ({ c with
        phase := .inserting hs aR rest (bt ++ [row]) tt } : Caller).phase = true := rfl
    simp only [hph2, if_true] at hcs
    have hoc := h.owner_count
    simp only [ownersCount] at hoc ⊢
    omega
  · intro j c2 fast hj hph2
    by_cases hij : i = j
    · subst hij
      rw [List.getElem?_set_self hlen] at hj
      injection hj with hj
      subst hj
      cases hph2
    · rw [List.getElem?_set_ne hij] at hj
      exact h.cached_ready j c2 fast hj hph2
  · intro j c2 hs2 aR2 pd2 bt2 tt2 hj hph2
    by_cases hij : i = j
    · subst hij
      rw [List.getElem?_set_self hlen] at hj
      injection hj with hj
      subst hj
      have hph3 : Phase.inserting hs aR rest (bt ++ [row]) tt
          = Phase.inserting hs2 aR2 pd2 bt2 tt2 := hph2
      cases hph3
      refine ⟨by omega, done, ?_, htt, htab⟩
      rw [haR]
      simp [List.append_assoc]
    · rw [List.getElem?_set_ne hij] at hj
      exact h.inserting_inv j c2 hs2 aR2 pd2 bt2 tt2 hj hph2

/-- Preservation: the end event publishes the completed load
(lines 138-158). -/
theorem inv_insert_publish (s : Sys) (h : SysInv s) (i : Nat) (c : Caller)
    (hci : s.callers[i]? = some c) (hs : List String)
    (aR bt : List (List String)) (tt : Nat)
    (hph : c.phase = .inserting hs aR [] bt tt)
    (tbl2 : Option Table)
    (htbl2 : tbl2 = pushRows s.db.table hs bt ∨ (bt = [] ∧ tbl2 = s.db.table))
    (n : Nat) (sch : List Column) (L : List Response) :
    SysInv { s with
      db := { isDatabaseInitialized := true, isInitializing := false, table := tbl2 },
      lastLoad := some (hs, aR),
      callers := s.callers.set i { c with phase := .doneOk n sch },
      log := L } := by
  have hown : ownerPhase c.phase = true := by rw [hph]; rfl
  have hlen := lt_length_of_getElem?_some hci
  have hinit := owner_initializing s h i c hci hown
  obtain ⟨hblt, done, haR, htt, htab⟩ :=
    h.inserting_inv i c hs aR [] bt tt hci hph
  have htbl : tbl2 = some { schema := inferSchema hs, rows := aR.map (rowValues hs) } := by
    rcases htbl2 with h1 | ⟨h1, h2⟩
    · rw [h1, htab]
      simp only [pushRows]
      rw [haR]
      simp [List.map_append]
    · subst h1
      rw [h2, htab, haR]
      simp
  refine ⟨?_, ?_, ?_, ?_, ?_⟩
  · have hcs := countP_set_eq (fun x => ownerPhase x.phase) s.callers i c hci
      { c with phase := .doneOk n sch }
    simp only [hown, if_true] at hcs
    have hph2 : ownerPhase ({ c with phase := .doneOk n sch } : Caller).phase
        = false := rfl
    simp only [hph2, Bool.false_eq_true, if_false] at hcs
    have hoc := h.owner_count
    rw [hinit] at hoc
    simp only [if_true] at hoc
    simp only [ownersCount] at hoc ⊢
    simp only [Bool.false_eq_true, if_false]
    omega
  · intro hx
    simp at hx
  · intro _
    exact ⟨hs, aR, rfl, htbl⟩
  · intro j c2 fast hj hph2
    rfl
  · intro j c2 hs2 aR2 pd2 bt2 tt2 hj hph2
    by_cases hij : i = j
    · subst hij
      rw [List.getElem?_set_self hlen] at hj
      injection hj with hj
      subst hj
      cases hph2
    · rw [List.getElem?_set_ne hij] at hj
      have hown3 : ownerPhase c2.phase = true := by rw [hph2]; rfl
      exact absurd (owner_unique s h hci hown hj hown3) hij


/-- SysInv only depends on the database state, the callers and the ghost
last-load record. -/
theorem sysInv_of_eq {s1 s2 : Sys} (h : SysInv s1) (hdb : s2.db = s1.db)
    (hcal : s2.callers = s1.callers) (hll : s2.lastLoad = s1.lastLoad) :
    SysInv s2 := by
  refine ⟨?_, ?_, ?_, ?_, ?_⟩
  · have := h.owner_count
    simpa [ownersCount, hcal, hdb] using this
  · rw [hdb]; exact h.ready_not_init
  · rw [hdb, hll]; exact h.ready_table
  · rw [hcal, hdb]; exact h.cached_ready
  · rw [hcal, hdb]; exact h.inserting_inv

/-- Resuming any caller preserves the invariant. -/
theorem inv_stepResume (i : Nat) (oc : Option LoadError) (s : Sys) (h : SysInv s) :
    SysInv (stepResume i oc s) := by
  rcases hci : s.callers[i]? with _ | c
  · simpa [stepResume, hci] using h
  obtain ⟨ph, rsp⟩ := c
  cases ph with
  | polling =>
      cases hI : s.db.isInitializing with
      | true =>
          simp only [stepResume, hci, resumeCaller, hI, if_true]
          exact sysInv_of_eq
            (inv_plain_step s h i ⟨.polling, rsp⟩ hci rfl .polling rfl
              (fun fast hx => by cases hx) (fun _ _ _ _ _ hx => by cases hx) s.log)
            (by simp) (by simp) (by simp)
      | false =>
          cases hD : s.db.isDatabaseInitialized with
          | true =>
              simp only [stepResume, hci, resumeCaller, hI, hD,
                Bool.false_eq_true, if_false, if_true]
              exact sysInv_of_eq
                (inv_plain_step s h i ⟨.polling, rsp⟩ hci rfl (.cachedInfo false) rfl
                  (fun _ _ => hD) (fun _ _ _ _ _ hx => by cases hx) s.log)
                (by simp) (by simp) (by simp)
          | false =>
              simp only [stepResume, hci, resumeCaller, hI, hD,
                Bool.false_eq_true, if_false]
              exact sysInv_of_eq
                (inv_claim_step s h i ⟨.polling, rsp⟩ hci rfl hI hD)
                (by simp [hD]) (by simp) (by simp)
  | cachedInfo fast =>
      cases ht : s.db.table with
      | some t =>
          simp only [stepResume, hci, resumeCaller, ht]
          exact sysInv_of_eq
            (inv_plain_step s h i ⟨.cachedInfo fast, rsp⟩ hci rfl
              (.doneOk t.rows.length t.schema) rfl
              (fun _ hx => by cases hx) (fun _ _ _ _ _ hx => by cases hx)
              (s.log ++ (if rsp then
                some (if fast then respAlready t.rows.length t.schema
                      else respLoaded t.rows.length t.schema) else none).toList))
            (by simp [ht]) (by simp) (by simp)
      | none =>
          exfalso
          obtain ⟨hs, rows, -, htab⟩ :=
            h.ready_table (h.cached_ready i ⟨.cachedInfo fast, rsp⟩ fast hci rfl)
          rw [ht] at htab
          cases htab
  | reading =>
      cases oc with
      | some e =>
          simp only [stepResume, hci, resumeCaller, failLoad]
          exact sysInv_of_eq
            (inv_fail_update s h i ⟨.reading, rsp⟩ e hci rfl
              (s.log ++ (if rsp then some (resp500 e) else none).toList))
            (by simp) (by simp) (by simp)
      | none =>
          cases hf : s.file with
          | none =>
              simp only [stepResume, hci, resumeCaller, hf, failLoad]
              exact sysInv_of_eq
                (inv_fail_update s h i ⟨.reading, rsp⟩ .streamError hci rfl
                  (s.log ++ (if rsp then some (resp500 .streamError) else none).toList))
                (by simp) (by simp) (by simp)
          | some f =>
              by_cases hh : f.headers.length = 0
              · simp only [stepResume, hci, resumeCaller, hf, hh, if_true, failLoad]
                exact sysInv_of_eq
                  (inv_fail_update s h i ⟨.reading, rsp⟩ .headerFailure hci rfl
                    (s.log ++ (if rsp then some (resp500 .headerFailure) else none).toList))
                  (by simp) (by simp) (by simp)
              · simp only [stepResume, hci, resumeCaller, hf, hh, if_false]
                exact sysInv_of_eq
                  (inv_owner_step s h i ⟨.reading, rsp⟩ hci rfl s.db.table
                    (.dropping f.headers) rfl
                    (fun _ hx => by cases hx) (fun _ _ _ _ _ hx => by cases hx))
                  (by simp) (by simp) (by simp)
  | dropping hs =>
      cases oc with
      | some e =>
          simp only [stepResume, hci, resumeCaller, failLoad]
          exact sysInv_of_eq
            (inv_fail_update s h i ⟨.dropping hs, rsp⟩ e hci rfl
              (s.log ++ (if rsp then some (resp500 e) else none).toList))
            (by simp) (by simp) (by simp)
      | none =>
          simp only [stepResume, hci, resumeCaller]
          exact sysInv_of_eq
            (inv_owner_step s h i ⟨.dropping hs, rsp⟩ hci rfl none
              (.creating hs) rfl
              (fun _ hx => by cases hx) (fun _ _ _ _ _ hx => by cases hx))
            (by simp) (by simp) (by simp)
  | creating hs =>
      cases oc with
      | some e =>
          simp only [stepResume, hci, resumeCaller, failLoad]
          exact sysInv_of_eq
            (inv_fail_update s h i ⟨.creating hs, rsp⟩ e hci rfl
              (s.log ++ (if rsp then some (resp500 e) else none).toList))
            (by simp) (by simp) (by simp)
      | none =>
          cases hf : s.file with
          | none =>
              simp only [stepResume, hci, resumeCaller, hf]
              exact sysInv_of_eq
                (inv_create_step s h i ⟨.creating hs, rsp⟩ hci rfl hs [])
                (by simp) (by simp) (by simp)
          | some f =>
              simp only [stepResume, hci, resumeCaller, hf]
              exact sysInv_of_eq
                (inv_create_step s h i ⟨.creating hs, rsp⟩ hci rfl hs f.rows)
                (by simp) (by simp) (by simp)
  | inserting hs aR pd bt tt =>
      cases oc with
      | some e =>
          simp only [stepResume, hci, resumeCaller, failLoad]
          exact sysInv_of_eq
            (inv_fail_update s h i ⟨.inserting hs aR pd bt tt, rsp⟩ e hci rfl
              (s.log ++ (if rsp then some (resp500 e) else none).toList))
            (by simp) (by simp) (by simp)
      | none =>
          cases pd with
          | cons row rest =>
              by_cases hfl : batchSize ≤ (bt ++ [row]).length
              · simp only [stepResume, hci, resumeCaller, hfl, if_true]
                exact sysInv_of_eq
                  (inv_insert_flush s h i ⟨.inserting hs aR (row :: rest) bt tt, rsp⟩
                    hci hs aR bt tt row rest rfl)
                  (by simp) (by simp) (by simp)
              · simp only [stepResume, hci, resumeCaller, hfl, if_false]
                exact sysInv_of_eq
                  (inv_insert_buffer s h i ⟨.inserting hs aR (row :: rest) bt tt, rsp⟩
                    hci hs aR bt tt row rest rfl hfl)
                  (by simp) (by simp) (by simp)
          | nil =>
              by_cases hbt : 0 < bt.length
              · simp only [stepResume, hci, resumeCaller, hbt, if_true]
                exact sysInv_of_eq
                  (inv_insert_publish s h i ⟨.inserting hs aR [] bt tt, rsp⟩
                    hci hs aR bt tt rfl (pushRows s.db.table hs bt) (Or.inl rfl)
                    (tt + bt.length) (inferSchema hs)
                    (s.log ++ (if rsp then
                      some (respLoaded (tt + bt.length) (inferSchema hs)) else none).toList))
                  (by simp) (by simp) (by simp)
              · simp only [stepResume, hci, resumeCaller, hbt, if_false]
                have hbt2 : bt = [] := by
                  cases bt with
                  | nil => rfl
                  | cons x xs => exact absurd (by simp) hbt
                exact sysInv_of_eq
                  (inv_insert_publish s h i ⟨.inserting hs aR [] bt tt, rsp⟩
                    hci hs aR bt tt rfl s.db.table (Or.inr ⟨hbt2, rfl⟩)
                    tt (inferSchema hs)
                    (s.log ++ (if rsp then
                      some (respLoaded tt (inferSchema hs)) else none).toList))
                  (by simp) (by simp) (by simp)
  | doneOk n sch =>
      simp only [stepResume, hci, resumeCaller]
      exact sysInv_of_eq
        (inv_plain_step s h i ⟨.doneOk n sch, rsp⟩ hci rfl (.doneOk n sch) rfl
          (fun _ hx => by cases hx) (fun _ _ _ _ _ hx => by cases hx) s.log)
        (by simp) (by simp) (by simp)
  | doneErr e =>
      simp only [stepResume, hci, resumeCaller]
      exact sysInv_of_eq
        (inv_plain_step s h i ⟨.doneErr e, rsp⟩ hci rfl (.doneErr e) rfl
          (fun _ hx => by cases hx) (fun _ _ _ _ _ hx => by cases hx) s.log)
        (by simp) (by simp) (by simp)

/-- Every scheduler event preserves the invariant. -/
theorem inv_step (a : Act) (s : Sys) (h : SysInv s) : SysInv (step a s) := by
  cases a with
  | initRequest => exact inv_stepInit s h
  | request path => exact inv_stepRequest path s h
  | resume i oc => exact inv_stepResume i oc s h
  | setFile f => exact inv_setFile s f h

/-- Whole executions preserve the invariant. -/
theorem inv_run (s : Sys) (acts : List Act) (h : SysInv s) : SysInv (run s acts) := by
  induction acts generalizing s with
  | nil => exact h
  | cons a rest ih => exact ih (step a s) (inv_step a s h)

/-- The initial state satisfies the invariant. -/
theorem inv_init0 (f : Option CSVFile) : SysInv (init0 f) := by
  cases f with
  | none =>
      refine ⟨rfl, ?_, ?_, ?_, ?_⟩
      · intro hx; cases hx
      · intro hx; cases hx
      · intro j c2 fast hj hph
        simp [init0] at hj
      · intro j c2 hs aR pd bt tt hj hph
        simp [init0] at hj
  | some f0 =>
      refine ⟨rfl, fun _ => rfl, ?_, ?_, ?_⟩
      · intro hx; cases hx
      · intro j c2 fast hj hph
        have hc2 : c2 = { phase := .reading, respond := false } := by
          cases j with
          | zero => simpa [init0] using hj.symm
          | succ j => simp [init0] at hj
        rw [hc2] at hph
        cases hph
      · intro j c2 hs aR pd bt tt hj hph
        have hc2 : c2 = { phase := .reading, respond := false } := by
          cases j with
          | zero => simpa [init0] using hj.symm
          | succ j => simp [init0] at hj
        rw [hc2] at hph
        cases hph

/-- Every reachable state satisfies the invariant. -/
theorem inv_reach (f : Option CSVFile) (acts : List Act) :
    SysInv (run (init0 f) acts) :=
  inv_run (init0 f) acts (inv_init0 f)

/-! ### Helper lemmas for the claim theorems -/

theorem concat_set_length {α : Type} (l : List α) (a b : α) :
    (l ++ [a]).set l.length b = l ++ [b] := by
  rw [List.set_append_right _ _ (Nat.le_refl _)]
  simp

/-- The explicit result of a failing resumption of the owner. -/
theorem step_fail_eq (s : Sys) (i : Nat) (c : Caller) (e : LoadError)
    (hc : s.callers[i]? = some c) (hown : ownerPhase c.phase = true) :
    step (.resume i (some e)) s
      = { s with db := { s.db with isInitializing := false },
                 callers := s.callers.set i { c with phase := .doneErr e },
                 log := s.log ++ (if c.respond then [resp500 e] else []) } := by
  obtain ⟨ph, rsp⟩ := c
  cases ph
  all_goals first
    | exact Bool.noConfusion hown
    | (simp only [step, stepResume, hc, resumeCaller, failLoad]
       cases rsp <;> simp)

/-- Any surfaced load failure resets isInitializing, leaves the published
flag and the table untouched, marks only the triggering caller failed and
answers (at most) that caller with a 500. -/
theorem failure_resets (s : Sys) (hsi : SysInv s) (i : Nat) (c : Caller)
    (e : LoadError) (hc : s.callers[i]? = some c)
    (hown : ownerPhase c.phase = true) :
    (step (.resume i (some e)) s).db.isInitializing = false ∧
    (step (.resume i (some e)) s).db.isDatabaseInitialized = false ∧
    (step (.resume i (some e)) s).db.table = s.db.table ∧
    (step (.resume i (some e)) s).callers[i]? = some { c with phase := .doneErr e } ∧
    (∀ j, j ≠ i → (step (.resume i (some e)) s).callers[j]? = s.callers[j]?) ∧
    (step (.resume i (some e)) s).log
      = s.log ++ (if c.respond then [resp500 e] else []) := by
  rw [step_fail_eq s i c e hc hown]
  refine ⟨rfl, owner_not_ready s hsi i c hc hown, rfl, ?_, ?_, rfl⟩
  · exact List.getElem?_set_self (lt_length_of_getElem?_some hc)
  · intro j hj
    exact List.getElem?_set_ne (fun hx => hj hx.symm)

/-- No branch of resumeCaller clears isDatabaseInitialized. -/
theorem resumeCaller_mono (db : DB) (file : Option CSVFile)
    (last : Option (List String × List (List String))) (c : Caller)
    (oc : Option LoadError) (hD : db.isDatabaseInitialized = true) :
    (resumeCaller db file last c oc).1.isDatabaseInitialized = true := by
  obtain ⟨ph, rsp⟩ := c
  cases ph <;> cases oc <;>
    (simp only [resumeCaller, failLoad]
     repeat' split
     all_goals simp_all)

/-- No scheduler event clears isDatabaseInitialized. -/
theorem step_mono (a : Act) (s : Sys) (hD : s.db.isDatabaseInitialized = true) :
    (step a s).db.isDatabaseInitialized = true := by
  cases a with
  | initRequest =>
      simp only [step, stepInit]
      repeat' split
      all_goals simpa [pushLog] using hD
  | request path =>
      simp only [step, stepRequest]
      repeat' split
      all_goals simpa [pushLog] using hD
  | setFile f => simpa using hD
  | resume i oc =>
      simp only [step, stepResume]
      rcases hci : s.callers[i]? with _ | c
      · simpa using hD
      · have hm := resumeCaller_mono s.db s.file s.lastLoad c oc hD
        rcases hrc : resumeCaller s.db s.file s.lastLoad c oc with ⟨db2, last2, c2, resp⟩
        rw [hrc] at hm
        simp only [hrc]
        simpa using hm

/-- Once published, isDatabaseInitialized stays set for any execution. -/
theorem run_mono (s : Sys) (acts : List Act)
    (hD : s.db.isDatabaseInitialized = true) :
    (run s acts).db.isDatabaseInitialized = true := by
  induction acts generalizing s with
  | nil => exact hD
  | cons a rest ih => exact ih (step a s) (step_mono a s hD)

/-- After a successful load, while no load is in progress, two /api/init
requests in a row (with an arbitrary change of the file on disk in
between) both take the fast path: no caller ever claims the
initialization again, the database state is untouched, the file is never
consulted, and both answers carry the same cached row count and schema. -/
theorem init_idempotent (s : Sys) (hsi : SysInv s) (g : Option CSVFile)
    (hD : s.db.isDatabaseInitialized = true)
    (hI : s.db.isInitializing = false) :
    ∃ t, s.db.table = some t ∧
      run s [.initRequest, .resume s.callers.length none, .setFile g,
             .initRequest, .resume (s.callers.length + 1) none]
        = { s with
            file := g,
            callers := s.callers
              ++ [{ phase := .doneOk t.rows.length t.schema, respond := true },
                  { phase := .doneOk t.rows.length t.schema, respond := true }],
            log := s.log ++ [respAlready t.rows.length t.schema,
                             respAlready t.rows.length t.schema] } := by
  obtain ⟨hs0, rows0, hll, htab⟩ := hsi.ready_table hD
  refine ⟨_, htab, ?_⟩
  have hfast : (s.db.isDatabaseInitialized && !s.db.isInitializing) = true := by
    rw [hD, hI]; rfl
  have h1 : step .initRequest s
      = { s with
          callers := s.callers
            ++ [{ phase := Phase.cachedInfo true, respond := true }] } := by
    simp [step, stepInit, hfast]
  have hget1 : (s.callers
        ++ [{ phase := Phase.cachedInfo true, respond := true }])[s.callers.length]?
      = some { phase := Phase.cachedInfo true, respond := true } :=
    List.getElem?_concat_length _ _
  have h2 : step (.resume s.callers.length none)
        { s with
          callers := s.callers
            ++ [{ phase := Phase.cachedInfo true, respond := true }] }
      = { s with
          callers := s.callers
            ++ [{ phase := Phase.doneOk (rows0.map (rowValues hs0)).length (inferSchema hs0),
                  respond := true }],
          log := s.log
            ++ [respAlready (rows0.map (rowValues hs0)).length (inferSchema hs0)] } := by
    simp only [step, stepResume, hget1, resumeCaller, htab]
    simp [concat_set_length]
  have h3 : step (.setFile g)
        { s with
          callers := s.callers
            ++ [{ phase := Phase.doneOk (rows0.map (rowValues hs0)).length (inferSchema hs0),
                  respond := true }],
          log := s.log
            ++ [respAlready (rows0.map (rowValues hs0)).length (inferSchema hs0)] }
      = { s with
          file := g,
          callers := s.callers
            ++ [{ phase := Phase.doneOk (rows0.map (rowValues hs0)).length (inferSchema hs0),
                  respond := true }],
          log := s.log
            ++ [respAlready (rows0.map (rowValues hs0)).length (inferSchema hs0)] } := rfl
  have h4 : step .initRequest
        { s with
          file := g,
          callers := s.callers
            ++ [{ phase := Phase.doneOk (rows0.map (rowValues hs0)).length (inferSchema hs0),
                  respond := true }],
          log := s.log
            ++ [respAlready (rows0.map (rowValues hs0)).length (inferSchema hs0)] }
      = { s with
          file := g,
          callers := (s.callers
            ++ [{ phase := Phase.doneOk (rows0.map (rowValues hs0)).length (inferSchema hs0),
                  respond := true }])
            ++ [{ phase := Phase.cachedInfo true, respond := true }],
          log := s.log
            ++ [respAlready (rows0.map (rowValues hs0)).length (inferSchema hs0)] } := by
    simp [step, stepInit, hfast]
  have hlen2 :
      (s.callers ++ [({ phase := Phase.doneOk (rows0.map (rowValues hs0)).length (inferSchema hs0), respond := true } : Caller)]).length
      = s.callers.length + 1 := by
    simp
  have hget2 :
      ((s.callers ++ [({ phase := Phase.doneOk (rows0.map (rowValues hs0)).length (inferSchema hs0), respond := true } : Caller)])
        ++ [({ phase := Phase.cachedInfo true, respond := true } : Caller)])[s.callers.length + 1]?
      = some ({ phase := Phase.cachedInfo true, respond := true } : Caller) := by
    rw [← hlen2]
    exact List.getElem?_concat_length _ _
  have hset2 :
      ((s.callers ++ [({ phase := Phase.doneOk (rows0.map (rowValues hs0)).length (inferSchema hs0), respond := true } : Caller)])
        ++ [({ phase := Phase.cachedInfo true, respond := true } : Caller)]).set (s.callers.length + 1)
        ({ phase := Phase.doneOk (rows0.map (rowValues hs0)).length (inferSchema hs0), respond := true } : Caller)
      = (s.callers ++ [({ phase := Phase.doneOk (rows0.map (rowValues hs0)).length (inferSchema hs0), respond := true } : Caller)])
        ++ [({ phase := Phase.doneOk (rows0.map (rowValues hs0)).length (inferSchema hs0), respond := true } : Caller)] := by
    rw [← hlen2]
    exact concat_set_length _ _ _
  have h5 : step (.resume (s.callers.length + 1) none)
        { s with
          file := g,
          callers := (s.callers
            ++ [{ phase := Phase.doneOk (rows0.map (rowValues hs0)).length (inferSchema hs0),
                  respond := true }])
            ++ [{ phase := Phase.cachedInfo true, respond := true }],
          log := s.log
            ++ [respAlready (rows0.map (rowValues hs0)).length (inferSchema hs0)] }
      = { s with
          file := g,
          callers := (s.callers
            ++ [{ phase := Phase.doneOk (rows0.map (rowValues hs0)).length (inferSchema hs0),
                  respond := true }])
            ++ [{ phase := Phase.doneOk (rows0.map (rowValues hs0)).length (inferSchema hs0),
                  respond := true }],
          log := (s.log
            ++ [respAlready (rows0.map (rowValues hs0)).length (inferSchema hs0)])
            ++ [respAlready (rows0.map (rowValues hs0)).length (inferSchema hs0)] } := by
    simp only [step, stepResume, hget2, resumeCaller, htab, hset2]
    simp
  show step (.resume (s.callers.length + 1) none)
      (step .initRequest (step (.setFile g)
        (step (.resume s.callers.length none) (step .initRequest s)))) = _
  rw [h1, h2, h3, h4, h5]
  simp [List.append_assoc]

/-- Closed form of the insert loop state after streaming any prefix of
data records: the buffer holds the residue modulo the batch size, every
executed batch INSERT had exactly batchSize rows, and totalRows counts
the flushed rows. -/
theorem insertTrace_foldl_spec (rows : List (List String)) :
    (rows.foldl traceData { batch := [], totalRows := 0, batches := [] }).batch.length
        = rows.length % batchSize ∧
    (rows.foldl traceData { batch := [], totalRows := 0, batches := [] }).totalRows
        = batchSize * (rows.length / batchSize) ∧
    (rows.foldl traceData { batch := [], totalRows := 0, batches := [] }).batches
        = List.replicate (rows.length / batchSize) batchSize := by
  induction rows using List.reverseRecOn with
  | nil => simp [batchSize]
  | append_singleton l a ih =>
      obtain ⟨ih1, ih2, ih3⟩ := ih
      rw [List.foldl_append]
      simp only [List.foldl_cons, List.foldl_nil]
      simp only [traceData, List.length_append, List.length_cons, List.length_nil]
      rw [ih1]
      by_cases hm : batchSize ≤ l.length % batchSize + 0 + 1
      · have h999 : l.length % batchSize = batchSize - 1 := by
          have := Nat.mod_lt l.length (y := batchSize) (by simp [batchSize])
          omega
        have hdiv : (l.length + 1) / batchSize = l.length / batchSize + 1 := by
          simp only [batchSize] at h999 ⊢
          omega
        have hmod : (l.length + 1) % batchSize = 0 := by
          simp only [batchSize] at h999 ⊢
          omega
        rw [if_pos hm]
        refine ⟨?_, ?_, ?_⟩
        · simp [hmod]
        · simp only [ih2, hdiv]
          simp only [batchSize] at h999 ⊢
          omega
        · rw [ih3, hdiv, List.replicate_succ']
          simp only [batchSize] at h999 ⊢
          simp [h999]
      · have hdiv : (l.length + 1) / batchSize = l.length / batchSize := by
          simp only [batchSize] at hm ⊢
          omega
        have hmod : (l.length + 1) % batchSize = l.length % batchSize + 1 := by
          simp only [batchSize] at hm ⊢
          omega
        rw [if_neg hm]
        refine ⟨?_, ?_, ?_⟩
        · simp [hmod, ih1]
        · simp [ih2, hdiv]
        · simp [ih3, hdiv]

/-- The counter bookkeeping of the oracle-indexed insert loop never
consults the oracle: buffered plus counted rows equal the consumed
records. -/
theorem oracle_foldl_count (ok : Nat → Bool) (headers : List String) :
    ∀ (rows : List (List String)) (st : OracleTrace),
      (rows.foldl (oracleData ok headers) st).totalRows
        + (rows.foldl (oracleData ok headers) st).batch.length
      = st.totalRows + st.batch.length + rows.length := by
  intro rows
  induction rows with
  | nil => intro st; simp
  | cons r rest ih =>
      intro st
      simp only [List.foldl_cons]
      rw [ih (oracleData ok headers st r)]
      simp only [oracleData, List.length_append, List.length_cons, List.length_nil]
      by_cases hm : batchSize ≤ st.batch.length + 0 + 1
      · rw [if_pos hm]
        simp only [List.length_nil, List.length_cons]
        omega
      · rw [if_neg hm]
        simp only [List.length_append, List.length_cons, List.length_nil]
        omega

/-! ### The claims -/

/-- C1: In every reachable server state, the number of loadCSVData
callers holding the initialization equals one exactly while
isInitializing is set — so at most one CSV load is ever executing
concurrently.  Moreover a POST /api/init arriving while a load is
InProgress changes no shared state and only adds a caller to the wait
loop, while a POST /api/init arriving in the NotStarted state (both
flags down, file present) atomically claims the transition to
InProgress and becomes the single loading caller. -/
theorem c1_at_most_one_load (f : Option CSVFile) (acts : List Act) :
    ownersCount (run (init0 f) acts)
        = (if (run (init0 f) acts).db.isInitializing then 1 else 0) ∧
    ((run (init0 f) acts).db.isInitializing = true →
      (run (init0 f) acts).file.isSome = true →
      (stepInit (run (init0 f) acts)).db = (run (init0 f) acts).db ∧
      (stepInit (run (init0 f) acts)).callers
        = (run (init0 f) acts).callers
            ++ [{ phase := .polling, respond := true }]) ∧
    ((run (init0 f) acts).db.isInitializing = false →
      (run (init0 f) acts).db.isDatabaseInitialized = false →
      (run (init0 f) acts).file.isSome = true →
      (stepInit (run (init0 f) acts)).db.isInitializing = true ∧
      (stepInit (run (init0 f) acts)).callers
        = (run (init0 f) acts).callers
            ++ [{ phase := .reading, respond := true }]) := by
  refine ⟨(inv_reach f acts).owner_count, ?_, ?_⟩
  · intro hI hF
    have hfast : ((run (init0 f) acts).db.isDatabaseInitialized
        && !(run (init0 f) acts).db.isInitializing) = false := by
      rw [hI]; simp
    have hfn : (run (init0 f) acts).file.isNone = false := by
      rcases hfe : (run (init0 f) acts).file with _ | v
      · rw [hfe] at hF; cases hF
      · rfl
    unfold stepInit
    rw [hfast, hfn, hI]
    simp
  · intro hI hD hF
    have hfast : ((run (init0 f) acts).db.isDatabaseInitialized
        && !(run (init0 f) acts).db.isInitializing) = false := by
      rw [hD]; simp
    have hfn : (run (init0 f) acts).file.isNone = false := by
      rcases hfe : (run (init0 f) acts).file with _ | v
      · rw [hfe] at hF; cases hF
      · rfl
    unfold stepInit
    rw [hfast, hfn, hI]
    simp

/-- Witness for C1: right after startup with a file present, the startup
caller is the unique owner, and an /api/init arriving then only joins
the wait loop. -/
theorem c1_at_most_one_load_witness :
    ownersCount (run (init0 (some fileA)) [])
        = (if (run (init0 (some fileA)) []).db.isInitializing then 1 else 0) ∧
    (stepInit (run (init0 (some fileA)) [])).callers
      = (run (init0 (some fileA)) []).callers
          ++ [{ phase := .polling, respond := true }] :=
  ⟨(c1_at_most_one_load (some fileA) []).1,
   ((c1_at_most_one_load (some fileA) []).2.1 (by decide) (by decide)).2⟩

/-- C2: In every reachable state, once success is published the table
holds exactly the translation of the most recently completed successful
load — the schema inferred from its headers and the values of every one
of its data rows, in order.  While success is not published (including
during and after any failed load), a POST /api/query is answered 503 by
the gate and the state is left unchanged, so no reader ever observes a
partially-populated or half-dropped table. -/
theorem c2_table_matches_last_load (f : Option CSVFile) (acts : List Act) :
    ((run (init0 f) acts).db.isDatabaseInitialized = true →
      ∃ hs rows, (run (init0 f) acts).lastLoad = some (hs, rows) ∧
        (run (init0 f) acts).db.table
          = some { schema := inferSchema hs, rows := rows.map (rowValues hs) }) ∧
    ((run (init0 f) acts).db.isDatabaseInitialized = false →
      stepRequest "/api/query" (run (init0 f) acts)
        = pushLog (run (init0 f) acts) resp503) := by
  refine ⟨(inv_reach f acts).ready_table, ?_⟩
  intro hD
  have h1 : (("/api/query" == "/api/init") : Bool) = false := by decide
  have h2 : (("/api/query" == "/health") : Bool) = false := by decide
  unfold stepRequest
  rw [h1, h2, hD]
  simp

/-- Witness for C2: the loaded single-row state exposes exactly the last
load, and the unloaded initial state turns the query away with 503. -/
theorem c2_table_matches_last_load_witness :
    ((run (init0 (some fileA)) loadActsA).db.isDatabaseInitialized = true ∧
      ∃ hs rows, (run (init0 (some fileA)) loadActsA).lastLoad = some (hs, rows) ∧
        (run (init0 (some fileA)) loadActsA).db.table
          = some { schema := inferSchema hs, rows := rows.map (rowValues hs) }) ∧
    ((run (init0 none) []).db.isDatabaseInitialized = false ∧
      stepRequest "/api/query" (run (init0 none) [])
        = pushLog (run (init0 none) []) resp503) :=
  ⟨⟨by decide, (c2_table_matches_last_load (some fileA) loadActsA).1 (by decide)⟩,
   ⟨by decide, (c2_table_matches_last_load none []).2 (by decide)⟩⟩

/-- C3: In every reachable state in which initialization has not reached
Ready, a request to any route other than /api/init and /health — in
particular any /api/query issued before the first successful load — is
answered 503 with success false by the gate, and the database state,
table and callers are untouched: the request never executes against the
database. -/
theorem c3_gate_blocks_before_ready (f : Option CSVFile) (acts : List Act)
    (path : String)
    (h1 : (path == "/api/init") = false) (h2 : (path == "/health") = false)
    (hD : (run (init0 f) acts).db.isDatabaseInitialized = false) :
    stepRequest path (run (init0 f) acts)
      = pushLog (run (init0 f) acts) resp503 ∧
    resp503.status = 503 ∧ resp503.success = false ∧
    (stepRequest path (run (init0 f) acts)).db = (run (init0 f) acts).db ∧
    (stepRequest path (run (init0 f) acts)).callers
      = (run (init0 f) acts).callers := by
  have heq : stepRequest path (run (init0 f) acts)
      = pushLog (run (init0 f) acts) resp503 := by
    unfold stepRequest
    rw [h1, h2, hD]
    simp
  exact ⟨heq, rfl, rfl, by rw [heq]; rfl, by rw [heq]; rfl⟩

/-- Witness for C3: a /api/query dispatched on the fresh unloaded server
bounces with 503. -/
theorem c3_gate_blocks_before_ready_witness :
    (("/api/query" == "/api/init") : Bool) = false ∧
    (run (init0 none) []).db.isDatabaseInitialized = false ∧
    stepRequest "/api/query" (run (init0 none) [])
      = pushLog (run (init0 none) []) resp503 :=
  ⟨by decide, by decide,
   (c3_gate_blocks_before_ready none [] "/api/query"
      (by decide) (by decide) (by decide)).1⟩

/-- C9: isDatabaseInitialized is monotone over the process lifetime:
once a load has published success in a reachable state, no further
scheduler events — failing resumptions included, which reset only
isInitializing — ever clear it. -/
theorem c9_initialized_monotone (f : Option CSVFile) (acts more : List Act)
    (hD : (run (init0 f) acts).db.isDatabaseInitialized = true) :
    (run (run (init0 f) acts) more).db.isDatabaseInitialized = true :=
  run_mono (run (init0 f) acts) more hD

/-- Witness for C9: after the startup load of fileA publishes success,
a failing resumption, a file deletion and another /api/init leave the
flag set. -/
theorem c9_initialized_monotone_witness :
    (run (init0 (some fileA)) loadActsA).db.isDatabaseInitialized = true ∧
    (run (run (init0 (some fileA)) loadActsA)
        [.resume 0 (some .streamError), .setFile none,
         .initRequest]).db.isDatabaseInitialized = true :=
  ⟨by decide,
   c9_initialized_monotone (some fileA) loadActsA
     [.resume 0 (some .streamError), .setFile none, .initRequest] (by decide)⟩

/-- C4: If, in any reachable state, the caller currently performing the
load fails (stream error on either pass, unreadable header, rejected
DROP or CREATE), then the shared state reverts to NotStarted — both
flags down, so a later request can retry — and the failure is delivered
only to that caller, whose phase becomes doneErr and whose /api/init
handler (when present) alone answers 500; every other caller, pollers
included, is untouched. -/
theorem c4_failure_resets_state (f : Option CSVFile) (acts : List Act)
    (i : Nat) (c : Caller) (e : LoadError)
    (hc : (run (init0 f) acts).callers[i]? = some c)
    (hown : ownerPhase c.phase = true) :
    (step (.resume i (some e)) (run (init0 f) acts)).db.isInitializing = false ∧
    (step (.resume i (some e)) (run (init0 f) acts)).db.isDatabaseInitialized = false ∧
    (step (.resume i (some e)) (run (init0 f) acts)).db.table
      = (run (init0 f) acts).db.table ∧
    (step (.resume i (some e)) (run (init0 f) acts)).callers[i]?
      = some { c with phase := .doneErr e } ∧
    (∀ j, j ≠ i → (step (.resume i (some e)) (run (init0 f) acts)).callers[j]?
      = (run (init0 f) acts).callers[j]?) ∧
    (step (.resume i (some e)) (run (init0 f) acts)).log
      = (run (init0 f) acts).log ++ (if c.respond then [resp500 e] else []) :=
  failure_resets (run (init0 f) acts) (inv_reach f acts) i c e hc hown

/-- Witness for C4: the startup caller of fileA fails its first stream
pass; the state reverts to NotStarted. -/
theorem c4_failure_resets_state_witness :
    (run (init0 (some fileA)) []).callers[0]?
      = some { phase := .reading, respond := false } ∧
    ownerPhase Phase.reading = true ∧
    (step (.resume 0 (some .headerFailure))
        (run (init0 (some fileA)) [])).db.isInitializing = false ∧
    (step (.resume 0 (some .headerFailure))
        (run (init0 (some fileA)) [])).db.isDatabaseInitialized = false :=
  ⟨by decide, by decide,
   (c4_failure_resets_state (some fileA) [] 0
      { phase := .reading, respond := false } .headerFailure
      (by decide) (by decide)).1,
   (c4_failure_resets_state (some fileA) [] 0
      { phase := .reading, respond := false } .headerFailure
      (by decide) (by decide)).2.1⟩

/-- C5: In any reachable state after a successful load (Ready, no load
in progress), two consecutive POST /api/init calls both take the fast
path: each spawns only a cached-info reader, the loader is never
re-entered (no caller claims the initialization), the database state is
untouched, and both responses are 200s carrying the same row count and
schema read from the engine — even if the CSV file is replaced or
deleted between the calls, showing the file is not re-parsed. -/
theorem c5_init_idempotent_fast_path (f : Option CSVFile) (acts : List Act)
    (g : Option CSVFile)
    (hD : (run (init0 f) acts).db.isDatabaseInitialized = true)
    (hI : (run (init0 f) acts).db.isInitializing = false) :
    ∃ t, (run (init0 f) acts).db.table = some t ∧
      run (run (init0 f) acts)
          [.initRequest, .resume (run (init0 f) acts).callers.length none,
           .setFile g, .initRequest,
           .resume ((run (init0 f) acts).callers.length + 1) none]
        = { run (init0 f) acts with
            file := g,
            callers := (run (init0 f) acts).callers
              ++ [{ phase := .doneOk t.rows.length t.schema, respond := true },
                  { phase := .doneOk t.rows.length t.schema, respond := true }],
            log := (run (init0 f) acts).log
              ++ [respAlready t.rows.length t.schema,
                  respAlready t.rows.length t.schema] } :=
  init_idempotent (run (init0 f) acts) (inv_reach f acts) g hD hI

/-- Witness for C5: after the startup load of fileA, two /api/init calls
with the file deleted in between produce two identical 200 answers. -/
theorem c5_init_idempotent_fast_path_witness :
    (run (init0 (some fileA)) loadActsA).db.isDatabaseInitialized = true ∧
    (run (init0 (some fileA)) loadActsA).db.isInitializing = false ∧
    ∃ t, (run (init0 (some fileA)) loadActsA).db.table = some t ∧
      run (run (init0 (some fileA)) loadActsA)
          [.initRequest,
           .resume (run (init0 (some fileA)) loadActsA).callers.length none,
           .setFile none, .initRequest,
           .resume ((run (init0 (some fileA)) loadActsA).callers.length + 1) none]
        = { run (init0 (some fileA)) loadActsA with
            file := none,
            callers := (run (init0 (some fileA)) loadActsA).callers
              ++ [{ phase := .doneOk t.rows.length t.schema, respond := true },
                  { phase := .doneOk t.rows.length t.schema, respond := true }],
            log := (run (init0 (some fileA)) loadActsA).log
              ++ [respAlready t.rows.length t.schema,
                  respAlready t.rows.length t.schema] } :=
  ⟨by decide, by decide,
   c5_init_idempotent_fast_path (some fileA) loadActsA none (by decide) (by decide)⟩

/-- C6 counterexample: the claim fails as stated.  After the startup
auto-load of fileA succeeds, the file is deleted from disk and
POST /api/init is called with no source file present; the handler takes
the fast path first (lines 206-218) and answers 200 with success true —
not 404 — because the file-existence check of line 224 is only reached
when the fast path does not apply. -/
theorem c6_counterexample_init_missing_file_after_ready :
    (run (init0 (some fileA)) acts6).file = none ∧
    (run (init0 (some fileA)) acts6).log.length = 1 ∧
    ((run (init0 (some fileA)) acts6).log.head?).map Response.status = some 200 ∧
    ((run (init0 (some fileA)) acts6).log.head?).map Response.success = some true := by
  decide

/-- C6 (amended): whenever /api/init is called while the fast path does
not apply — the database is not both initialized and idle — and the
source CSV file is absent, the response is 404 with success false and a
message, and nothing else happens. -/
theorem c6_missing_file_404 (f : Option CSVFile) (acts : List Act)
    (hna : ((run (init0 f) acts).db.isDatabaseInitialized
        && !(run (init0 f) acts).db.isInitializing) = false)
    (hf : (run (init0 f) acts).file = none) :
    stepInit (run (init0 f) acts) = pushLog (run (init0 f) acts) resp404 ∧
    resp404.status = 404 ∧ resp404.success = false := by
  refine ⟨?_, rfl, rfl⟩
  unfold stepInit
  rw [hna, hf]
  simp

/-- Witness for C6 (amended): /api/init on the fresh server with no file
answers 404. -/
theorem c6_missing_file_404_witness :
    ((run (init0 none) []).db.isDatabaseInitialized
        && !(run (init0 none) []).db.isInitializing) = false ∧
    (run (init0 none) []).file = none ∧
    stepInit (run (init0 none) []) = pushLog (run (init0 none) []) resp404 :=
  ⟨by decide, by decide, (c6_missing_file_404 none [] (by decide) (by decide)).1⟩

/-- C7: For any CSV data section of exactly 2001 records, the insert
pass of the loader executes exactly three batch INSERTs of 1000, 1000
and 1 rows — two full batches flushed inside the data handler and the
remaining partial batch flushed at stream end — and reports a totalRows
of 2001. -/
theorem c7_batches_2001 (rows : List (List String)) (hlen : rows.length = 2001) :
    (insertTrace rows).batches = [1000, 1000, 1] ∧
    (insertTrace rows).totalRows = 2001 := by
  obtain ⟨h1, h2, h3⟩ := insertTrace_foldl_spec rows
  rw [hlen] at h1 h2 h3
  simp only [batchSize] at h1 h2 h3
  norm_num at h1 h2 h3
  unfold insertTrace traceEnd
  rw [h1]
  simp only [Nat.zero_lt_one, if_pos]
  refine ⟨?_, ?_⟩
  · rw [h3]
    rfl
  · rw [h2]

/-- Witness for C7: a concrete 2001-record data section. -/
theorem c7_batches_2001_witness :
    (List.replicate 2001 ([] : List String)).length = 2001 ∧
    (insertTrace (List.replicate 2001 ([] : List String))).batches
      = [1000, 1000, 1] ∧
    (insertTrace (List.replicate 2001 ([] : List String))).totalRows = 2001 :=
  ⟨by simp,
   (c7_batches_2001 (List.replicate 2001 ([] : List String)) (by simp)).1,
   (c7_batches_2001 (List.replicate 2001 ([] : List String)) (by simp)).2⟩

/-- C8: Round-trip.  Loading the CSV with header [a, b] and data rows
[1, x] and [2, y], then dispatching the query SELECT star FROM orders,
returns a 200 whose data is exactly the two input rows, in input order,
every field the stored text; the created table carries both columns
typed TEXT despite the numeric-looking first field. -/
theorem c8_roundtrip :
    (run (init0 (some fileRT)) actsRT).db.table
      = some { schema := [{ name := "a", type := "TEXT" },
                          { name := "b", type := "TEXT" }],
               rows := [["1", "x"], ["2", "y"]] } ∧
    (run (init0 (some fileRT)) actsRT).log
      = [respQuery [["1", "x"], ["2", "y"]]] ∧
    (respQuery [["1", "x"], ["2", "y"]]).data = some [["1", "x"], ["2", "y"]] ∧
    (respQuery [["1", "x"], ["2", "y"]]).status = 200 ∧
    (respQuery [["1", "x"], ["2", "y"]]).success = true := by
  decide

/-- C10: The totalRows a load reports equals the number of data records
streamed, for every assignment of engine outcomes to the individual
stmt.run calls: the calls carry no result callback, so failures within a
batch are invisible and the counter advances by the full batch size
unconditionally. -/
theorem c10_rowcount_ignores_insert_outcomes (ok : Nat → Bool)
    (headers : List String) (rows : List (List String)) :
    (oracleTrace ok headers rows).totalRows = rows.length := by
  have h := oracle_foldl_count ok headers rows
    { batch := [], totalRows := 0, stored := [], runs := 0 }
  simp only [Nat.zero_add, Nat.add_zero, List.length_nil] at h
  unfold oracleTrace oracleEnd
  by_cases hb : 0 < (rows.foldl (oracleData ok headers)
      { batch := [], totalRows := 0, stored := [], runs := 0 }).batch.length
  · rw [if_pos hb]
    simpa using h
  · rw [if_neg hb]
    omega
